import Mathlib

/-!
# Verification of the Backstage token-handling core

A shallow embedding of the two token-handling engines of the repository:

* `ServerTokenManager` (from
  `packages/backend-common/src/tokens/ServerTokenManager.ts`): symmetric
  server-to-server token issuing and verification over a list of shared
  secrets.
* The identity-token verifier (`IdentityClient` with its remote key-set
  cache).  Its implementation file is not part of the sources at hand (only
  its test suite is), so it is modelled from the specification, as marked on
  each of its definitions.

The `jose` library (signing, verification, base64url) is an external trusted
dependency of the code; it is modelled symbolically at its documented
interface: a signature is an ideal MAC, i.e. a term recording the algorithm,
the key and the signed content, and verification succeeds exactly when the
recomputed term matches.  `jwtVerify` called with a symmetric secret and no
`algorithms` option accepts any of the HMAC algorithms HS256, HS384 and
HS512, and never the `none` algorithm or an asymmetric one; time-based
claims (`exp`, `nbf`) play no role here because no server token carries
them.
-/

/-! ## base64url (model of `jose.base64url.decode`)

RFC 4648 base64url alphabet, unpadded; characters outside the alphabet are
skipped, matching the lenient Node decoder. -/

/-- The sextet value of one base64url alphabet character. -/
def b64Val (c : Char) : Option Nat :=
  if 65 ≤ c.toNat ∧ c.toNat ≤ 90 then some (c.toNat - 65)
  else if 97 ≤ c.toNat ∧ c.toNat ≤ 122 then some (c.toNat - 97 + 26)
  else if 48 ≤ c.toNat ∧ c.toNat ≤ 57 then some (c.toNat - 48 + 52)
  else if c = Char.ofNat 45 then some 62
  else if c = Char.ofNat 95 then some 63
  else none

/-- Regroup a stream of 6-bit values into 8-bit bytes. -/
def decodeSextets : List Nat → List Nat
  | a :: b :: c :: d :: rest =>
      (a * 4 + b / 16) :: ((b % 16) * 16 + c / 4) :: ((c % 4) * 64 + d)
        :: decodeSextets rest
  | [a, b] => [a * 4 + b / 16]
  | [a, b, c] => [a * 4 + b / 16, (b % 16) * 16 + c / 4]
  | _ => []

/-- Model of `base64url.decode`: a secret string decoded to raw key bytes. -/
def base64urlDecode (s : String) : List Nat :=
  decodeSextets (s.data.filterMap b64Val)

deriving instance DecidableEq for Except

/-! ## Symbolic JWT model (interface of `jose` for symmetric keys) -/

/-- Raw symmetric key material (`Uint8Array` in the source). -/
abbrev SecretKey := List Nat

/-- A JOSE protected header as used by the server tokens: an algorithm name
and an optional `sub` field (`setProtectedHeader({alg, sub})`). -/
structure JoseHeader where
  alg : String
  sub : Option String := none
deriving DecidableEq, Repr

/-- A JWT payload: a finite list of string claims in insertion order. -/
abbrev Claims := List (String × String)

/-- An ideal MAC: the signature over a header/payload pair records the
algorithm, the key and the signed content, and nothing can be forged. -/
structure JoseSig where
  alg : String
  key : SecretKey
  header : JoseHeader
  payload : Claims
deriving DecidableEq, Repr

/-- A decoded JWT: header, payload and an optional signature (`none` models
an unsigned token such as one claiming the `none` algorithm). -/
structure Jwt where
  header : JoseHeader
  payload : Claims
  sig : Option JoseSig
deriving DecidableEq, Repr

/-- The algorithms `jose.jwtVerify` accepts for a symmetric (`Uint8Array`)
secret when no `algorithms` option restricts them: the HMAC family. -/
def hsAlgs : List String := ["HS256", "HS384", "HS512"]

/-- Model of `new SignJWT(payload).setProtectedHeader(header).sign(key)`:
the token is signed with the algorithm named in the protected header. -/
def signJWT (header : JoseHeader) (payload : Claims) (key : SecretKey) : Jwt :=
  ⟨header, payload, some ⟨header.alg, key, header, payload⟩⟩

/-- A `jose.jwtVerify` failure: either the token algorithm is not allowed
for the presented key, or the signature does not verify under that key. -/
inductive JoseError where
  | algNotAllowed (alg : String)
  | signatureInvalid (key : SecretKey)
deriving DecidableEq, Repr

/-- Model of `jose.jwtVerify(token, key)` for a symmetric secret: the header
algorithm must be in the HMAC family and the signature must be the ideal MAC
of the token content under the presented key. -/
def jwtVerifyE (t : Jwt) (key : SecretKey) : Except JoseError Unit :=
  if t.header.alg ∈ hsAlgs then
    if t.sig = some ⟨t.header.alg, key, t.header, t.payload⟩ then .ok ()
    else .error (.signatureInvalid key)
  else .error (.algNotAllowed t.header.alg)

/-! ## ServerTokenManager -/

/-- The `AuthenticationError` thrown by `authenticate`: it wraps the last
verification failure encountered (`undefined` when no key was tried). -/
structure AuthenticationError where
  verifyError : Option JoseError
deriving DecidableEq, Repr

/-- State of a `ServerTokenManager`: the ordered verification keys and the
designated signing key (`this.signingKey = this.verificationKeys[0]`, which
is `undefined` when the store is empty). -/
structure ServerTokenManager where
  verificationKeys : List SecretKey
  signingKey : Option SecretKey
deriving DecidableEq, Repr

/-- The fixed service principal subject used by `getToken`. -/
def serverSub : String := "backstage-server"

/-- The private constructor: with an empty secrets list outside the
`development` environment it throws; otherwise it decodes each secret in
order and designates the first decoded key as the signing key. -/
def ServerTokenManager.construct (nodeEnv : String) (secrets : List String) :
    Except String ServerTokenManager :=
  if secrets.length = 0 ∧ nodeEnv ≠ "development" then
    .error "No secrets provided when constructing ServerTokenManager"
  else
    let keys := secrets.map base64urlDecode
    .ok ⟨keys, keys.head?⟩

/-- `ServerTokenManager.fromConfig`: with a non-empty configured key list it
constructs from those secrets; otherwise it throws outside `development` and
falls back to an empty manager in `development`.  The config array is
modelled as the list of its `secret` strings (`none` when the path is
absent). -/
def ServerTokenManager.fromConfig (nodeEnv : String) (keys : Option (List String)) :
    Except String ServerTokenManager :=
  if (keys.getD []).length ≠ 0 then
    ServerTokenManager.construct nodeEnv (keys.getD [])
  else if nodeEnv ≠ "development" then
    .error "You must configure at least one key in backend.auth.keys for production."
  else
    ServerTokenManager.construct nodeEnv []

/-- `generateKeys`: outside `development` it throws; otherwise it pushes the
decoded fresh secret (the `k` field of the exported JWK, a base64url string,
passed here as the parameter `freshKey`) and re-designates the first key as
the signing key. -/
def ServerTokenManager.generateKeys (m : ServerTokenManager) (nodeEnv freshKey : String) :
    Except String ServerTokenManager :=
  if nodeEnv ≠ "development" then
    .error "Key generation is not supported outside of the dev environment"
  else
    let keys := m.verificationKeys ++ [base64urlDecode freshKey]
    .ok ⟨keys, keys.head?⟩

/-- `getToken`: generates keys first when the store is empty, then signs a
token whose protected header is `{alg: HS256, sub: backstage-server}` and
whose payload carries the claims `alg: HS256` (from the `SignJWT` payload
argument) and `sub: backstage-server` (from `setSubject`).  Returns the
token together with the possibly-updated manager state. -/
def ServerTokenManager.getToken (m : ServerTokenManager) (nodeEnv freshKey : String) :
    Except String (Jwt × ServerTokenManager) :=
  match (if m.verificationKeys.isEmpty then m.generateKeys nodeEnv freshKey else .ok m) with
  | .error e => .error e
  | .ok m' =>
    match m'.signingKey with
    | some k =>
        .ok (signJWT ⟨"HS256", some serverSub⟩ [("alg", "HS256"), ("sub", serverSub)] k, m')
    | none => .error "sign called with an undefined key"

/-- The loop body of `authenticate`: try each key in order, returning on the
first success and remembering the failure of the most recent attempt. -/
def authTryKeys (t : Jwt) : List SecretKey → Option JoseError →
    Except AuthenticationError Unit
  | [], verifyError => .error ⟨verifyError⟩
  | k :: ks, _ =>
      match jwtVerifyE t k with
      | .ok _ => .ok ()
      | .error e => authTryKeys t ks (some e)

/-- `authenticate`: succeed on the first verification key that verifies the
token; otherwise throw an `AuthenticationError` wrapping the last
verification failure (`undefined` when the store is empty). -/
def ServerTokenManager.authenticate (m : ServerTokenManager) (t : Jwt) :
    Except AuthenticationError Unit :=
  authTryKeys t m.verificationKeys none

/-- Manager states reachable in a fixed environment: freshly constructed, or
the post-state of a `getToken` call on a reachable state (`authenticate`
never mutates the state). -/
inductive Reachable (nodeEnv : String) : ServerTokenManager → Prop where
  | constructed (secrets : List String) (m : ServerTokenManager)
      (h : ServerTokenManager.construct nodeEnv secrets = .ok m) :
      Reachable nodeEnv m
  | tokenStep (m m' : ServerTokenManager) (freshKey : String) (t : Jwt)
      (hm : Reachable nodeEnv m)
      (h : m.getToken nodeEnv freshKey = .ok (t, m')) :
      Reachable nodeEnv m'

/-! ## Identity-token verifier and remote key-set cache

The implementation file of `IdentityClient` is not among the sources (only
its test suite is), so this side is modelled from the specification, §4.2
(authenticate steps 1-7 and the refresh policy) and §9 (allowed asymmetric
algorithms).  Time is an integer in a single fixed unit; the remote JWKS
document is a parameter (the list of keys the authority currently serves);
each call also reports how many remote fetches it performed so that the
cooldown bound is observable. -/

/-- Modelled from the spec: one public key of the remote JWKS document,
with its key id and the algorithm it advertises capability for; the key
material is an abstract identifier under the ideal-signature model. -/
structure Jwk where
  kid : String
  alg : String
  key : Nat
deriving DecidableEq, Repr

/-- Modelled from the spec: the protected header of an identity token - the
claimed algorithm and key id, decoded without verifying the signature. -/
structure IdHeader where
  alg : String
  kid : String
deriving DecidableEq, Repr

/-- Modelled from the spec: the decoded payload of an identity token -
issuer, subject, audience, issued-at, expiry and the optional `ent` claim
listing ownership entity references. -/
structure IdPayload where
  iss : String
  sub : String
  aud : String
  iat : Int
  exp : Int
  ent : Option (List String)
deriving DecidableEq, Repr

/-- Modelled from the spec: an identity token.  The signature is an ideal
asymmetric signature recording algorithm, signing key and signed payload;
`none` models a token with no signature (such as an `alg: none` token). -/
structure IdToken where
  header : IdHeader
  payload : IdPayload
  sig : Option (String × Nat × IdPayload)
deriving DecidableEq, Repr

/-- Modelled from the spec: the remote key-set cache state - the key-id to
key mapping from the last fetch and the timestamp of that fetch (`none`
when never fetched). -/
structure KeySetCache where
  keys : List Jwk
  lastFetch : Option Int
deriving DecidableEq, Repr

/-- Result of a cache lookup: the resolved key or a failure, the new cache
state, and the number of remote fetches performed (0 or 1). -/
structure KeyLookupResult where
  result : Except String Jwk
  cache : KeySetCache
  fetches : Nat
deriving DecidableEq, Repr

/-- Modelled from the spec: a refresh is permitted when the cache has never
been fetched or the cooldown interval has elapsed since the last fetch. -/
def KeySetCache.mayFetch (cache : KeySetCache) (now cooldown : Int) : Bool :=
  match cache.lastFetch with
  | none => true
  | some t0 => decide (cooldown ≤ now - t0)

/-- Modelled from the spec: the refresh policy of the remote key-set cache.
A present key id is returned without a network call; an absent one triggers
a single wholesale refresh when the cache was never fetched or the cooldown
has elapsed, followed by one retry of the lookup; otherwise, or when the
refreshed set still lacks the key id, the lookup fails. -/
def KeySetCache.getKey (cache : KeySetCache) (remote : List Jwk)
    (now cooldown : Int) (kid : String) : KeyLookupResult :=
  match cache.keys.find? (fun j => j.kid = kid) with
  | some j => ⟨.ok j, cache, 0⟩
  | none =>
    if cache.mayFetch now cooldown then
      match (⟨remote, some now⟩ : KeySetCache).keys.find? (fun j => j.kid = kid) with
      | some j => ⟨.ok j, ⟨remote, some now⟩, 1⟩
      | none => ⟨.error "Key not found in refreshed key set", ⟨remote, some now⟩, 1⟩
    else ⟨.error "Key not found and refresh is on cooldown", cache, 0⟩

/-- Modelled from the spec: the algorithms the verifier accepts, each an
allowed asymmetric algorithm (the authority signs with ES256). -/
def allowedAsymAlgs : List String := ["ES256"]

/-- Modelled from the spec: the identity record derived from validated
claims. -/
structure BackstageIdentity where
  type : String
  userEntityRef : String
  ownershipEntityRefs : List String
deriving DecidableEq, Repr

/-- Modelled from the spec: the successful response of the verifier. -/
structure IdentityResponse where
  token : IdToken
  identity : BackstageIdentity
deriving DecidableEq, Repr

/-- Result of an identity verification: response or failure, the new cache
state, and the number of remote fetches performed. -/
structure IdAuthResult where
  result : Except String IdentityResponse
  cache : KeySetCache
  fetches : Nat
deriving DecidableEq, Repr

/-- Modelled from the spec: `IdentityClient.authenticate`.  An absent token
fails without network access; otherwise the key id from the header is
resolved through the cache, the signature is checked under the algorithm
the resolved key advertises (which must be an allowed asymmetric algorithm),
the issuer, audience, expiry and issued-at claims are validated, and the
validated claims are mapped to the identity record, the optional `ent`
claim defaulting to the empty list. -/
def IdentityClient.authenticate (issuer : String) (remote : List Jwk)
    (now cooldown skew : Int) (cache : KeySetCache) (token : Option IdToken) :
    IdAuthResult :=
  match token with
  | none => ⟨.error "No token provided", cache, 0⟩
  | some t =>
    let lookup := cache.getKey remote now cooldown t.header.kid
    match lookup.result with
    | .error e => ⟨.error e, lookup.cache, lookup.fetches⟩
    | .ok jwk =>
      if jwk.alg ∈ allowedAsymAlgs
          ∧ t.sig = some (jwk.alg, jwk.key, t.payload)
          ∧ t.payload.iss = issuer
          ∧ t.payload.aud = "backstage"
          ∧ now < t.payload.exp
          ∧ t.payload.iat ≤ now + skew then
        ⟨.ok ⟨t, ⟨"user", t.payload.sub, t.payload.ent.getD []⟩⟩,
          lookup.cache, lookup.fetches⟩
      else ⟨.error "Verification failed", lookup.cache, lookup.fetches⟩

/-! ## Helper lemmas -/

/-- If every key in the list fails to verify the token, the key-trying loop
ends in an error, whatever failure is already remembered. -/
theorem authTryKeys_all_fail (t : Jwt) :
    ∀ (ks : List SecretKey) (acc : Option JoseError),
      (∀ k ∈ ks, jwtVerifyE t k ≠ .ok ()) →
      ∃ err, authTryKeys t ks acc = .error err := by
  intro ks
  induction ks with
  | nil => intro acc _; exact ⟨⟨acc⟩, rfl⟩
  | cons k ks ih =>
    intro acc hfail
    have hk := hfail k (List.mem_cons_self k ks)
    unfold authTryKeys
    cases hv : jwtVerifyE t k with
    | ok u => cases u; exact absurd hv hk
    | error e =>
      exact ih (some e) (fun k' hk' => hfail k' (List.mem_cons_of_mem k hk'))

/-- If every key fails, the loop returns the failure of the last key tried,
and earlier failures are dropped. -/
theorem authTryKeys_last_error (t : Jwt) :
    ∀ (l : List SecretKey) (k : SecretKey) (acc : Option JoseError) (e : JoseError),
      (∀ key ∈ l, jwtVerifyE t key ≠ .ok ()) →
      jwtVerifyE t k = .error e →
      authTryKeys t (l ++ [k]) acc = .error ⟨some e⟩ := by
  intro l
  induction l with
  | nil =>
    intro k acc e _ hk
    simp only [List.nil_append]
    unfold authTryKeys
    rw [hk]
    rfl
  | cons k' l ih =>
    intro k acc e hfail hk
    have hk' := hfail k' (List.mem_cons_self k' l)
    simp only [List.cons_append]
    unfold authTryKeys
    cases hv : jwtVerifyE t k' with
    | ok u => cases u; exact absurd hv hk'
    | error e' =>
      exact ih k (some e') e (fun x hx => hfail x (List.mem_cons_of_mem k' hx)) hk

/-- A successful `getToken` call leaves a non-empty store untouched, fills
an empty store with exactly the one freshly generated key, and in all cases
only extends the store at its end. -/
theorem getToken_ok_state (m m' : ServerTokenManager) (nodeEnv freshKey : String)
    (t : Jwt) (h : m.getToken nodeEnv freshKey = .ok (t, m')) :
    (m.verificationKeys ≠ [] → m' = m)
    ∧ (m.verificationKeys = [] →
        m'.verificationKeys = [base64urlDecode freshKey]
        ∧ m'.signingKey = some (base64urlDecode freshKey))
    ∧ ∃ l, m'.verificationKeys = m.verificationKeys ++ l := by
  unfold ServerTokenManager.getToken at h
  cases hks : m.verificationKeys with
  | nil =>
    rw [hks] at h
    unfold ServerTokenManager.generateKeys at h
    rw [hks] at h
    by_cases he : nodeEnv = "development"
    · simp [he] at h
      obtain ⟨-, hm⟩ := h
      refine ⟨fun hne => absurd rfl hne, fun _ => ?_, ?_⟩
      · rw [← hm]
        exact ⟨rfl, rfl⟩
      · refine ⟨[base64urlDecode freshKey], ?_⟩
        rw [← hm]
        simp
    · simp [he] at h
  | cons k ks =>
    rw [hks] at h
    simp only [List.isEmpty_cons, Bool.false_eq_true, reduceIte] at h
    cases hsk : m.signingKey with
    | some sk =>
      rw [hsk] at h
      simp only [Except.ok.injEq, Prod.mk.injEq] at h
      obtain ⟨-, hm⟩ := h
      subst hm
      refine ⟨fun _ => rfl, fun he => absurd he (List.cons_ne_nil k ks),
        ⟨[], by simp [hks]⟩⟩
    | none =>
      rw [hsk] at h
      cases h

/-- The token produced by a successful `getToken` call is the HS256-signed
token over the service subject under the resulting signing key, with the
payload carrying the spurious `alg` claim next to the subject. -/
theorem getToken_ok_token (m m' : ServerTokenManager) (nodeEnv freshKey : String)
    (t : Jwt) (h : m.getToken nodeEnv freshKey = .ok (t, m')) :
    ∃ k, m'.signingKey = some k
      ∧ t = signJWT ⟨"HS256", some serverSub⟩ [("alg", "HS256"), ("sub", serverSub)] k := by
  unfold ServerTokenManager.getToken at h
  split at h
  · cases h
  · split at h
    · rename_i hsk
      simp only [Except.ok.injEq, Prod.mk.injEq] at h
      obtain ⟨ht, hm⟩ := h
      subst hm
      exact ⟨_, hsk, ht.symm⟩
    · cases h

/-- Verifying a token right after signing it with the same key succeeds,
for any HMAC-family algorithm in the header. -/
theorem jwtVerifyE_signJWT (header : JoseHeader) (payload : Claims) (key : SecretKey)
    (halg : header.alg ∈ hsAlgs) :
    jwtVerifyE (signJWT header payload key) key = .ok () := by
  unfold jwtVerifyE signJWT
  simp [halg]

/-- When the first key verifies the token, the key-trying loop succeeds. -/
theorem authTryKeys_head_ok (t : Jwt) (k : SecretKey) (ks : List SecretKey)
    (acc : Option JoseError) (h : jwtVerifyE t k = .ok ()) :
    authTryKeys t (k :: ks) acc = .ok () := by
  unfold authTryKeys
  rw [h]

/-- The signing key of any reachable manager state is the head of its
verification-key list. -/
theorem reachable_signingKey_head (nodeEnv : String) (m : ServerTokenManager)
    (hr : Reachable nodeEnv m) : m.signingKey = m.verificationKeys.head? := by
  induction hr with
  | constructed secrets m h =>
    unfold ServerTokenManager.construct at h
    split at h
    · cases h
    · simp only [Except.ok.injEq] at h
      rw [← h]
  | tokenStep m m' freshKey t hm h ih =>
    obtain ⟨hne, hemp, -⟩ := getToken_ok_state m m' nodeEnv freshKey t h
    cases hks : m.verificationKeys with
    | nil =>
      obtain ⟨h1, h2⟩ := hemp hks
      rw [h1, h2]
      rfl
    | cons k ks =>
      rw [hne (by simp [hks])]
      exact ih

/-! ## The claims -/

/-- The manager state obtained by constructing from the single secret
`AAAA` (which decodes to the three zero bytes). -/
def mAAAA : ServerTokenManager := ⟨[[0, 0, 0]], some [0, 0, 0]⟩

/-- C1: for every manager constructed from a non-empty list of secrets,
getToken followed by authenticate with the returned token on the same
instance succeeds (and the instance state is unchanged). -/
theorem getToken_authenticate_roundtrip (nodeEnv freshKey : String)
    (secrets : List String) (m : ServerTokenManager)
    (hne : secrets ≠ [])
    (hc : ServerTokenManager.construct nodeEnv secrets = .ok m) :
    ∃ t m', m.getToken nodeEnv freshKey = .ok (t, m')
      ∧ m' = m ∧ m.authenticate t = .ok () := by
  obtain ⟨s, ss, rfl⟩ : ∃ s ss, secrets = s :: ss := by
    cases secrets with
    | nil => exact absurd rfl hne
    | cons s ss => exact ⟨s, ss, rfl⟩
  unfold ServerTokenManager.construct at hc
  simp at hc
  subst hc
  refine ⟨_, _, rfl, rfl, ?_⟩
  unfold ServerTokenManager.authenticate
  exact authTryKeys_head_ok _ _ _ _ (jwtVerifyE_signJWT _ _ _ (by simp [hsAlgs]))

/-- Witness for C1: a one-secret manager in production mode. -/
theorem getToken_authenticate_roundtrip_witness :
    ((["AAAA"] : List String) ≠ [])
    ∧ ServerTokenManager.construct "production" ["AAAA"]
        = .ok ⟨[[0, 0, 0]], some [0, 0, 0]⟩
    ∧ ∃ t m', ServerTokenManager.getToken ⟨[[0, 0, 0]], some [0, 0, 0]⟩ "production" "B"
        = .ok (t, m')
      ∧ m' = (⟨[[0, 0, 0]], some [0, 0, 0]⟩ : ServerTokenManager)
      ∧ ServerTokenManager.authenticate ⟨[[0, 0, 0]], some [0, 0, 0]⟩ t = .ok () :=
  ⟨by decide, by decide,
    getToken_authenticate_roundtrip "production" "B" ["AAAA"] _ (by decide) (by decide)⟩

/-- C7: a manager constructed with zero secrets (possible only outside
production, namely in development mode) succeeds on its first getToken
call, generating exactly one key and establishing it as the signing key,
and the returned token authenticates on the resulting instance. -/
theorem emptyManager_first_getToken (nodeEnv freshKey : String) (m : ServerTokenManager)
    (hnp : nodeEnv ≠ "production")
    (hc : ServerTokenManager.construct nodeEnv [] = .ok m) :
    ∃ t m', m.getToken nodeEnv freshKey = .ok (t, m')
      ∧ m'.verificationKeys = [base64urlDecode freshKey]
      ∧ m'.signingKey = some (base64urlDecode freshKey)
      ∧ m'.authenticate t = .ok () := by
  have hdev : nodeEnv = "development" := by
    by_cases he : nodeEnv = "development"
    · exact he
    · unfold ServerTokenManager.construct at hc
      simp [he] at hc
  subst hdev
  have hm : m = ⟨[], none⟩ := by
    unfold ServerTokenManager.construct at hc
    simp at hc
    exact hc.symm
  subst hm
  refine ⟨_, _, rfl, rfl, rfl, ?_⟩
  unfold ServerTokenManager.authenticate
  exact authTryKeys_head_ok _ _ _ _ (jwtVerifyE_signJWT _ _ _ (by simp [hsAlgs]))

/-- Witness for C7: the development manager with zero secrets. -/
theorem emptyManager_first_getToken_witness :
    (("development" : String) ≠ "production")
    ∧ ServerTokenManager.construct "development" [] = .ok ⟨[], none⟩
    ∧ ∃ t m', ServerTokenManager.getToken ⟨[], none⟩ "development" "AAAA" = .ok (t, m')
      ∧ m'.verificationKeys = [[0, 0, 0]]
      ∧ m'.signingKey = some [0, 0, 0]
      ∧ m'.authenticate t = .ok () := by
  refine ⟨by decide, by decide, ?_⟩
  have h := emptyManager_first_getToken "development" "AAAA" ⟨[], none⟩
    (by decide) (by decide)
  simpa [show base64urlDecode "AAAA" = [0, 0, 0] from by decide] using h

/-- C8: for every reachable manager state, the signing key is the head of
the verification-key list (hence a member when the store is non-empty), and
getToken mutates the store only from the empty state, by appending exactly
one generated key, never reordering. -/
theorem signingKey_store_invariant (nodeEnv : String) (m : ServerTokenManager)
    (hr : Reachable nodeEnv m) :
    m.signingKey = m.verificationKeys.head?
    ∧ (m.verificationKeys ≠ [] →
        ∃ k, m.signingKey = some k ∧ k ∈ m.verificationKeys)
    ∧ (∀ freshKey t m', m.getToken nodeEnv freshKey = .ok (t, m') →
        (m.verificationKeys ≠ [] → m' = m)
        ∧ (m.verificationKeys = [] → m'.verificationKeys = [base64urlDecode freshKey])
        ∧ ∃ l, m'.verificationKeys = m.verificationKeys ++ l) := by
  refine ⟨reachable_signingKey_head nodeEnv m hr, ?_, ?_⟩
  · intro hne
    cases hks : m.verificationKeys with
    | nil => exact absurd hks hne
    | cons k ks =>
      refine ⟨k, ?_, by simp [hks]⟩
      rw [reachable_signingKey_head nodeEnv m hr, hks]
      rfl
  · intro freshKey t m' h
    obtain ⟨h1, h2, h3⟩ := getToken_ok_state m m' nodeEnv freshKey t h
    exact ⟨h1, fun he => (h2 he).1, h3⟩

/-- Witness for C8: the one-secret production manager is reachable and
satisfies the invariant. -/
theorem signingKey_store_invariant_witness :
    Reachable "production" mAAAA
    ∧ (mAAAA.signingKey = mAAAA.verificationKeys.head?
      ∧ (mAAAA.verificationKeys ≠ [] →
          ∃ k, mAAAA.signingKey = some k ∧ k ∈ mAAAA.verificationKeys)
      ∧ (∀ freshKey t m', mAAAA.getToken "production" freshKey = .ok (t, m') →
          (mAAAA.verificationKeys ≠ [] → m' = mAAAA)
          ∧ (mAAAA.verificationKeys = []
              → m'.verificationKeys = [base64urlDecode freshKey])
          ∧ ∃ l, m'.verificationKeys = mAAAA.verificationKeys ++ l)) :=
  ⟨.constructed ["AAAA"] _ (by decide),
    signingKey_store_invariant "production" _ (.constructed ["AAAA"] _ (by decide))⟩

/-- C10: a manager whose key store is empty (constructed from zero secrets,
before any getToken call) rejects every token with an AuthenticationError
wrapping no verification failure at all. -/
theorem authenticate_empty_store (nodeEnv : String) (m : ServerTokenManager) (t : Jwt)
    (hc : ServerTokenManager.construct nodeEnv [] = .ok m) :
    m.authenticate t = .error ⟨none⟩ := by
  have hm : m = ⟨[], none⟩ := by
    unfold ServerTokenManager.construct at hc
    by_cases he : nodeEnv = "development"
    · simp [he] at hc
      exact hc.symm
    · simp [he] at hc
  subst hm
  rfl

/-- Witness for C10: the development manager with zero secrets rejects a
well-formed-looking token with no wrapped failure. -/
theorem authenticate_empty_store_witness :
    ServerTokenManager.construct "development" [] = .ok ⟨[], none⟩
    ∧ ServerTokenManager.authenticate ⟨[], none⟩ ⟨⟨"HS256", none⟩, [], none⟩
        = .error ⟨none⟩ :=
  ⟨by decide, authenticate_empty_store "development" _ _ (by decide)⟩

/-- A forged token claiming HS384 whose signature is a valid HMAC under the
stored key of `mAAAA`. -/
def tHS384 : Jwt :=
  ⟨⟨"HS384", none⟩, [], some ⟨"HS384", [0, 0, 0], ⟨"HS384", none⟩, []⟩⟩

/-- C2 counterexample: `jwtVerify` with a symmetric secret and no
`algorithms` option accepts the whole HMAC family, so a token declaring
HS384 - an algorithm other than HS256 - with a valid HS384 MAC under a
stored key is accepted by authenticate, contradicting the claim that every
non-HS256 algorithm is rejected. -/
theorem authenticate_accepts_HS384_counterexample :
    ServerTokenManager.construct "production" ["AAAA"] = .ok mAAAA
    ∧ tHS384.header.alg ≠ "none"
    ∧ tHS384.header.alg ≠ "HS256"
    ∧ mAAAA.authenticate tHS384 = .ok () := by decide

/-- C2 (amended): authenticate rejects every token whose header algorithm
lies outside the HMAC family HS256/HS384/HS512 accepted for symmetric
secrets - in particular every token claiming the none algorithm -
regardless of payload and signature content; a non-HS256 HMAC algorithm
with a valid MAC under a stored key is however accepted. -/
theorem authenticate_rejects_foreign_alg (m : ServerTokenManager) (t : Jwt)
    (h : t.header.alg ∉ hsAlgs) :
    ∃ err, m.authenticate t = .error err := by
  unfold ServerTokenManager.authenticate
  refine authTryKeys_all_fail t m.verificationKeys none (fun k _ => ?_)
  unfold jwtVerifyE
  simp [h]

/-- An unsigned token claiming the none algorithm. -/
def tNone : Jwt := ⟨⟨"none", none⟩, [("sub", "backstage-server")], none⟩

/-- Witness for amended C2: the none-algorithm token is rejected. -/
theorem authenticate_rejects_foreign_alg_witness :
    (tNone.header.alg ∉ hsAlgs)
    ∧ ∃ err, mAAAA.authenticate tNone = .error err :=
  ⟨by decide, authenticate_rejects_foreign_alg mAAAA tNone (by decide)⟩

/-- C3 counterexample: in mode `test` - a mode other than production -
construction with an empty secrets list fails, where the claim demands
success with an empty store for every mode other than production. -/
theorem construct_empty_test_mode_counterexample :
    ("test" : String) ≠ "production"
    ∧ ServerTokenManager.construct "test" []
        = .error "No secrets provided when constructing ServerTokenManager"
    ∧ ServerTokenManager.fromConfig "test" none
        = .error "You must configure at least one key in backend.auth.keys for production." :=
  ⟨by decide, by rfl, by rfl⟩

/-- C3 (amended): construction with an empty secrets list fails exactly
when the mode flag differs from `development`; in development mode it
succeeds with an empty store (`fromConfig` with an absent key list behaves
the same, with its own error message). -/
theorem construct_empty_mode_gate (nodeEnv : String) :
    ServerTokenManager.construct nodeEnv []
      = (if nodeEnv = "development" then .ok ⟨[], none⟩
         else .error "No secrets provided when constructing ServerTokenManager")
    ∧ ServerTokenManager.fromConfig nodeEnv none
      = (if nodeEnv = "development" then .ok ⟨[], none⟩
         else .error "You must configure at least one key in backend.auth.keys for production.") := by
  by_cases he : nodeEnv = "development" <;>
    simp [ServerTokenManager.construct, ServerTokenManager.fromConfig, he]

/-- The token `getToken` produces on `mAAAA`. -/
def tServer : Jwt :=
  signJWT ⟨"HS256", some serverSub⟩ [("alg", "HS256"), ("sub", serverSub)] [0, 0, 0]

/-- C9 counterexample: the token returned by getToken carries a payload
claim beyond the subject, namely the spurious claim `alg: HS256` that
`new SignJWT({alg})` copies into the payload. -/
theorem getToken_payload_extra_claim_counterexample :
    ServerTokenManager.getToken mAAAA "production" "B" = .ok (tServer, mAAAA)
    ∧ tServer.payload = [("alg", "HS256"), ("sub", "backstage-server")]
    ∧ ("alg", "HS256") ∈ tServer.payload
    ∧ ("alg" : String) ≠ "sub" := by decide

/-- C9 (amended): every token returned by getToken is HS256-signed with
subject `backstage-server` in both protected header and payload, and its
payload carries exactly one claim beyond the subject, the spurious
`alg: HS256` claim. -/
theorem getToken_token_shape (m m' : ServerTokenManager) (nodeEnv freshKey : String)
    (t : Jwt) (h : m.getToken nodeEnv freshKey = .ok (t, m')) :
    t.header.alg = "HS256"
    ∧ t.header.sub = some "backstage-server"
    ∧ t.payload = [("alg", "HS256"), ("sub", "backstage-server")]
    ∧ ∃ k, m'.signingKey = some k ∧ t.sig = some ⟨"HS256", k, t.header, t.payload⟩ := by
  obtain ⟨k, hk, ht⟩ := getToken_ok_token m m' nodeEnv freshKey t h
  subst ht
  exact ⟨rfl, rfl, rfl, ⟨k, hk, rfl⟩⟩

/-- Witness for amended C9: the concrete token of `mAAAA`. -/
theorem getToken_token_shape_witness :
    ServerTokenManager.getToken mAAAA "production" "B" = .ok (tServer, mAAAA)
    ∧ tServer.header.alg = "HS256"
    ∧ tServer.header.sub = some "backstage-server"
    ∧ tServer.payload = [("alg", "HS256"), ("sub", "backstage-server")]
    ∧ ∃ k, mAAAA.signingKey = some k
        ∧ tServer.sig = some ⟨"HS256", k, tServer.header, tServer.payload⟩ :=
  ⟨by decide, getToken_token_shape mAAAA mAAAA "production" "B" tServer (by decide)⟩

/-- C6: when no key in the store verifies a token, authenticate throws an
error wrapping the verification failure of the last key tried (earlier
failures are dropped), and a token minted by one manager instance is
rejected by another instance holding disjoint keys. -/
theorem authenticate_last_error_and_disjoint (m : ServerTokenManager) (t : Jwt)
    (l : List SecretKey) (kLast : SecretKey)
    (env₁ env₂ envT fresh : String)
    (secrets₁ secrets₂ : List String) (n₁ n₂ : ServerTokenManager)
    (hkeys : m.verificationKeys = l ++ [kLast])
    (hfail : ∀ key ∈ m.verificationKeys, jwtVerifyE t key ≠ .ok ())
    (h₁ : ServerTokenManager.construct env₁ secrets₁ = .ok n₁)
    (hne : secrets₁ ≠ [])
    (h₂ : ServerTokenManager.construct env₂ secrets₂ = .ok n₂)
    (hdisj : ∀ k ∈ n₁.verificationKeys, k ∉ n₂.verificationKeys) :
    (∃ e, jwtVerifyE t kLast = .error e ∧ m.authenticate t = .error ⟨some e⟩)
    ∧ (∀ t₁ n₁', n₁.getToken envT fresh = .ok (t₁, n₁') →
        ∃ err, n₂.authenticate t₁ = .error err) := by
  constructor
  · have hlast := hfail kLast (by simp [hkeys])
    cases hv : jwtVerifyE t kLast with
    | ok u => cases u; exact absurd hv hlast
    | error e =>
      refine ⟨e, rfl, ?_⟩
      unfold ServerTokenManager.authenticate
      rw [hkeys]
      exact authTryKeys_last_error t l kLast none e
        (fun key hk => hfail key (by simp [hkeys, hk])) hv
  · intro t₁ n₁' hg
    obtain ⟨s, ss, rfl⟩ : ∃ s ss, secrets₁ = s :: ss := by
      cases secrets₁ with
      | nil => exact absurd rfl hne
      | cons s ss => exact ⟨s, ss, rfl⟩
    unfold ServerTokenManager.construct at h₁
    simp at h₁
    subst h₁
    obtain ⟨k, hk, ht⟩ := getToken_ok_token _ n₁' envT fresh t₁ hg
    obtain ⟨h1, -, -⟩ := getToken_ok_state _ n₁' envT fresh t₁ hg
    have hn := h1 (by simp)
    rw [hn] at hk
    simp at hk
    have hkmem : k ∈ (ServerTokenManager.mk
        (base64urlDecode s :: List.map base64urlDecode ss)
        (some (base64urlDecode s))).verificationKeys := by
      simp [← hk]
    unfold ServerTokenManager.authenticate
    refine authTryKeys_all_fail t₁ _ none (fun key₂ hk₂ hok => ?_)
    subst ht
    unfold jwtVerifyE signJWT at hok
    simp [hsAlgs] at hok
    subst hok
    exact hdisj _ hkmem hk₂

/-- Witness for C6: the none-algorithm token fails on every key of the
one-key manager, wrapping the failure of its last (only) key; the token of
the `AAAA` manager is rejected by the disjoint `AQAA` manager. -/
theorem authenticate_last_error_and_disjoint_witness :
    (mAAAA.verificationKeys = [] ++ [[0, 0, 0]])
    ∧ (∀ key ∈ mAAAA.verificationKeys, jwtVerifyE tNone key ≠ .ok ())
    ∧ ServerTokenManager.construct "production" ["AAAA"] = .ok mAAAA
    ∧ ((["AAAA"] : List String) ≠ [])
    ∧ ServerTokenManager.construct "production" ["AQAA"]
        = .ok ⟨[[1, 0, 0]], some [1, 0, 0]⟩
    ∧ (∀ k ∈ mAAAA.verificationKeys,
        k ∉ (⟨[[1, 0, 0]], some [1, 0, 0]⟩ : ServerTokenManager).verificationKeys)
    ∧ ((∃ e, jwtVerifyE tNone [0, 0, 0] = .error e
          ∧ mAAAA.authenticate tNone = .error ⟨some e⟩)
      ∧ (∀ t₁ n₁', mAAAA.getToken "production" "B" = .ok (t₁, n₁') →
          ∃ err, ServerTokenManager.authenticate
            ⟨[[1, 0, 0]], some [1, 0, 0]⟩ t₁ = .error err)) :=
  ⟨by decide, by decide, by decide, by decide, by decide, by decide,
    authenticate_last_error_and_disjoint mAAAA tNone [] [0, 0, 0]
      "production" "production" "production" "B" ["AAAA"] ["AQAA"] mAAAA
      ⟨[[1, 0, 0]], some [1, 0, 0]⟩ (by decide) (by decide) (by decide)
      (by decide) (by decide) (by decide)⟩

/-- C5: a validly-signed, correctly-issued identity token maps to the user
identity whose userEntityRef is the subject and whose ownershipEntityRefs
is the optional ent claim defaulting to the empty list; in particular with
subject foo and no ent claim the result is exactly
type user, userEntityRef foo, ownershipEntityRefs empty. -/
theorem identity_authenticate_maps_claims (issuer : String) (remote : List Jwk)
    (now cooldown skew : Int) (cache : KeySetCache) (t : IdToken) (jwk : Jwk)
    (hfind : cache.keys.find? (fun j => j.kid = t.header.kid) = some jwk)
    (halg : jwk.alg ∈ allowedAsymAlgs)
    (hsig : t.sig = some (jwk.alg, jwk.key, t.payload))
    (hiss : t.payload.iss = issuer)
    (haud : t.payload.aud = "backstage")
    (hexp : now < t.payload.exp)
    (hiat : t.payload.iat ≤ now + skew) :
    IdentityClient.authenticate issuer remote now cooldown skew cache (some t)
      = ⟨.ok ⟨t, ⟨"user", t.payload.sub, t.payload.ent.getD []⟩⟩, cache, 0⟩
    ∧ (t.payload.sub = "foo" → t.payload.ent = none →
        IdentityClient.authenticate issuer remote now cooldown skew cache (some t)
          = ⟨.ok ⟨t, ⟨"user", "foo", []⟩⟩, cache, 0⟩) := by
  have hmain : IdentityClient.authenticate issuer remote now cooldown skew cache (some t)
      = ⟨.ok ⟨t, ⟨"user", t.payload.sub, t.payload.ent.getD []⟩⟩, cache, 0⟩ := by
    simp [IdentityClient.authenticate, KeySetCache.getKey, hfind, halg, hsig,
      hiss, haud, hexp, hiat]
  refine ⟨hmain, fun hsub hent => ?_⟩
  rw [hmain, hsub, hent]
  rfl

/-- The key pair of the concrete identity-token scenario. -/
def jwkES : Jwk := ⟨"kid1", "ES256", 7⟩

/-- A concrete well-issued identity token for subject foo under `jwkES`. -/
def tFoo : IdToken :=
  ⟨⟨"ES256", "kid1"⟩, ⟨"http://backstage:9191/i-am-a-mock-base", "foo", "backstage", 0, 100, none⟩,
    some ("ES256", 7, ⟨"http://backstage:9191/i-am-a-mock-base", "foo", "backstage", 0, 100, none⟩)⟩

/-- Witness for C5: the concrete token verifies to the foo user identity
with no ownership references. -/
theorem identity_authenticate_maps_claims_witness :
    ((⟨[jwkES], some 0⟩ : KeySetCache).keys.find? (fun j => j.kid = tFoo.header.kid)
        = some jwkES)
    ∧ (jwkES.alg ∈ allowedAsymAlgs)
    ∧ (tFoo.sig = some (jwkES.alg, jwkES.key, tFoo.payload))
    ∧ (tFoo.payload.iss = "http://backstage:9191/i-am-a-mock-base")
    ∧ (tFoo.payload.aud = "backstage")
    ∧ ((1 : Int) < tFoo.payload.exp)
    ∧ (tFoo.payload.iat ≤ (1 : Int) + 2)
    ∧ (IdentityClient.authenticate "http://backstage:9191/i-am-a-mock-base" []
          1 10 2 ⟨[jwkES], some 0⟩ (some tFoo)
        = ⟨.ok ⟨tFoo, ⟨"user", tFoo.payload.sub, tFoo.payload.ent.getD []⟩⟩,
            ⟨[jwkES], some 0⟩, 0⟩
      ∧ (tFoo.payload.sub = "foo" → tFoo.payload.ent = none →
          IdentityClient.authenticate "http://backstage:9191/i-am-a-mock-base" []
              1 10 2 ⟨[jwkES], some 0⟩ (some tFoo)
            = ⟨.ok ⟨tFoo, ⟨"user", "foo", []⟩⟩, ⟨[jwkES], some 0⟩, 0⟩)) :=
  ⟨by decide, by decide, by decide, by decide, by decide, by decide, by decide,
    identity_authenticate_maps_claims "http://backstage:9191/i-am-a-mock-base" []
      1 10 2 ⟨[jwkES], some 0⟩ tFoo jwkES (by decide) (by decide) (by decide)
      (by decide) (by decide) (by decide) (by decide)⟩

/-- C4: every cache lookup performs at most one remote fetch; a key id
missing from both the cache and the refreshed set fails within that single
fetch; a missing key id during the cooldown window fails with no fetch at
all; and once the cooldown has elapsed, a token signed under a freshly
rotated key id present at the authority verifies successfully through
exactly one refresh. -/
theorem keyset_refresh_cooldown (issuer : String) (remote : List Jwk)
    (now cooldown skew t0 : Int) (cache : KeySetCache) (t : IdToken) (jwk : Jwk)
    (hclast : cache.lastFetch = some t0)
    (hmiss : cache.keys.find? (fun j => j.kid = t.header.kid) = none)
    (hcool : cooldown ≤ now - t0)
    (hremote : remote.find? (fun j => j.kid = t.header.kid) = some jwk)
    (halg : jwk.alg ∈ allowedAsymAlgs)
    (hsig : t.sig = some (jwk.alg, jwk.key, t.payload))
    (hiss : t.payload.iss = issuer)
    (haud : t.payload.aud = "backstage")
    (hexp : now < t.payload.exp)
    (hiat : t.payload.iat ≤ now + skew) :
    (∀ (c : KeySetCache) (r : List Jwk) (n cd : Int) (s : String),
        (KeySetCache.getKey c r n cd s).fetches ≤ 1)
    ∧ (∀ (c : KeySetCache) (r : List Jwk) (n cd : Int) (s : String),
        c.keys.find? (fun j => j.kid = s) = none →
        r.find? (fun j => j.kid = s) = none →
        ∃ e, (KeySetCache.getKey c r n cd s).result = .error e)
    ∧ (∀ (c : KeySetCache) (r : List Jwk) (n cd tf : Int) (s : String),
        c.keys.find? (fun j => j.kid = s) = none →
        c.lastFetch = some tf → n - tf < cd →
        (KeySetCache.getKey c r n cd s).fetches = 0
          ∧ (KeySetCache.getKey c r n cd s).result
              = .error "Key not found and refresh is on cooldown")
    ∧ IdentityClient.authenticate issuer remote now cooldown skew cache (some t)
        = ⟨.ok ⟨t, ⟨"user", t.payload.sub, t.payload.ent.getD []⟩⟩,
            ⟨remote, some now⟩, 1⟩ := by
  refine ⟨?_, ?_, ?_, ?_⟩
  · intro c r n cd s
    unfold KeySetCache.getKey
    split
    · simp
    · split
      · split <;> simp
      · simp
  · intro c r n cd s h1 h2
    unfold KeySetCache.getKey
    rw [h1]
    cases hmf : c.mayFetch n cd with
    | true => simp [hmf, h2]
    | false => simp [hmf]
  · intro c r n cd tf s h1 h2 h3
    have hmf : c.mayFetch n cd = false := by
      unfold KeySetCache.mayFetch
      rw [h2]
      simp
      omega
    unfold KeySetCache.getKey
    rw [h1]
    simp [hmf]
  · have hmf : cache.mayFetch now cooldown = true := by
      unfold KeySetCache.mayFetch
      rw [hclast]
      simpa using hcool
    simp [IdentityClient.authenticate, KeySetCache.getKey, hmiss, hmf, hremote,
      halg, hsig, hiss, haud, hexp, hiat]

/-- A concrete well-issued identity token for subject foo under a rotated
key id absent from the stale cache. -/
def tFoo2 : IdToken :=
  ⟨⟨"ES256", "kid2"⟩, ⟨"http://backstage:9191/i-am-a-mock-base", "foo", "backstage", 40, 100, none⟩,
    some ("ES256", 9, ⟨"http://backstage:9191/i-am-a-mock-base", "foo", "backstage", 40, 100, none⟩)⟩

/-- Witness for C4: a stale cache holding only the old key, fetched at time
0 with cooldown 10, is refreshed at time 50 and the token under the rotated
key id verifies with exactly one fetch. -/
theorem keyset_refresh_cooldown_witness :
    ((⟨[jwkES], some 0⟩ : KeySetCache).lastFetch = some 0)
    ∧ ((⟨[jwkES], some 0⟩ : KeySetCache).keys.find?
        (fun j => j.kid = tFoo2.header.kid) = none)
    ∧ ((10 : Int) ≤ 50 - 0)
    ∧ ([(⟨"kid2", "ES256", 9⟩ : Jwk)].find? (fun j => j.kid = tFoo2.header.kid)
        = some ⟨"kid2", "ES256", 9⟩)
    ∧ ((⟨"kid2", "ES256", 9⟩ : Jwk).alg ∈ allowedAsymAlgs)
    ∧ (tFoo2.sig = some ((⟨"kid2", "ES256", 9⟩ : Jwk).alg,
        (⟨"kid2", "ES256", 9⟩ : Jwk).key, tFoo2.payload))
    ∧ (tFoo2.payload.iss = "http://backstage:9191/i-am-a-mock-base")
    ∧ (tFoo2.payload.aud = "backstage")
    ∧ ((50 : Int) < tFoo2.payload.exp)
    ∧ (tFoo2.payload.iat ≤ (50 : Int) + 2)
    ∧ IdentityClient.authenticate "http://backstage:9191/i-am-a-mock-base"
        [⟨"kid2", "ES256", 9⟩] 50 10 2 ⟨[jwkES], some 0⟩ (some tFoo2)
      = ⟨.ok ⟨tFoo2, ⟨"user", tFoo2.payload.sub, tFoo2.payload.ent.getD []⟩⟩,
          ⟨[⟨"kid2", "ES256", 9⟩], some 50⟩, 1⟩ := by
  refine ⟨by decide, by decide, by decide, by decide, by decide, by decide,
    by decide, by decide, by decide, by decide, ?_⟩
  exact (keyset_refresh_cooldown "http://backstage:9191/i-am-a-mock-base"
    [⟨"kid2", "ES256", 9⟩] 50 10 2 0 ⟨[jwkES], some 0⟩ tFoo2 ⟨"kid2", "ES256", 9⟩
    (by decide) (by decide) (by decide) (by decide) (by decide) (by decide)
    (by decide) (by decide) (by decide) (by decide)).2.2.2

